import Mathlib

/-!
# Device registry (`my-app/main.go`): shallow embedding and verified contract

The program keeps a process-wide slice `devices`, three Prometheus instruments
and two HTTP handlers.  The embedding below follows `main.go` function by
function.  The Go standard-library calls the handlers make
(`strings.TrimPrefix`, `strconv.Atoi`, `json.NewDecoder(..).Decode`,
`json.Marshal`, `http.Error`, `http.NotFound`, the `ResponseWriter`) are
modelled in the first half of the file, after the library's own sources.

Conventions.
* Go `int` is 64 bit; it is an `Int` here, and every place where the library
  checks the 64-bit range (`Atoi`, `ParseInt`) checks it here too.
* Go strings and request bodies are `String`/`List Char`: sequences of Unicode
  scalar values, that is, bodies and paths that are valid UTF-8.
* A Prometheus counter child is the number of `Inc` calls it received, a gauge
  is the integer it was last set to.
* Library behaviour is that of current Go releases (1.22 and later); where an
  older release differs, the definition says so.
-/

namespace strings

/-- Go `strings.HasPrefix`, on character lists. -/
def hasPrefixList : List Char → List Char → Bool
  | _, [] => true
  | [], _ :: _ => false
  | c :: s, p :: ps => c == p && hasPrefixList s ps

/-- Go `strings.HasPrefix(s, pre)`. -/
def HasPrefix (s pre : String) : Bool := hasPrefixList s.data pre.data

/-- Go `strings.TrimPrefix(s, pre)`: `s` without the leading `pre`, or `s`
itself when it does not start with `pre`. -/
def TrimPrefix (s pre : String) : String :=
  if HasPrefix s pre then ⟨s.data.drop pre.data.length⟩ else s

end strings

namespace strconv

/-- Value of a decimal digit character, `none` for any other character. -/
def digitVal (c : Char) : Option Nat :=
  if '0' ≤ c ∧ c ≤ '9' then some (c.toNat - '0'.toNat) else none

/-- Accumulate decimal digits left to right (`n = n*10 + d`); `none` as soon as
a character is not a digit. -/
def parseDigits : List Char → Nat → Option Nat
  | [], acc => some acc
  | c :: cs, acc =>
    match digitVal c with
    | some d => parseDigits cs (acc * 10 + d)
    | none => none

/-- Unsigned part shared by `Atoi` and `ParseInt(s, 10, 64)`: at least one
character, all of them decimal digits (base 10 admits no underscore). -/
def parseUint (cs : List Char) : Option Nat :=
  match cs with
  | [] => none
  | _ :: _ => parseDigits cs 0

/-- Go `strconv.ParseInt(s, 10, 64)` on a character list: optional sign, then
digits; a value outside `[-2^63, 2^63-1]` is a range error.  `none` stands for
a non-nil `error`. -/
def parseInt64 (cs : List Char) : Option Int :=
  match cs with
  | [] => none
  | '+' :: rest =>
    match parseUint rest with
    | some n => if n < 2 ^ 63 then some (n : Int) else none
    | none => none
  | '-' :: rest =>
    match parseUint rest with
    | some n => if n ≤ 2 ^ 63 then some (-(n : Int)) else none
    | none => none
  | _ :: _ =>
    match parseUint cs with
    | some n => if n < 2 ^ 63 then some (n : Int) else none
    | none => none

/-- Go `strconv.Atoi(s)` with 64-bit `int`: both its fast path (fewer than 19
bytes) and its slow path (`ParseInt(s, 10, 0)`) accept exactly an optional
sign followed by one or more decimal digits whose value fits in 64 bits. -/
def Atoi (s : String) : Option Int := parseInt64 s.data

/-- Decimal digits of a natural number, most significant first (`fuel` bounds
the number of digits). -/
def natDigits : Nat → Nat → List Char → List Char
  | 0, _, acc => acc
  | fuel + 1, n, acc =>
    let acc1 := Char.ofNat ('0'.toNat + n % 10) :: acc
    if n / 10 = 0 then acc1 else natDigits fuel (n / 10) acc1

/-- Go `strconv.AppendInt(nil, i, 10)` / `strconv.Itoa`. -/
def formatInt (i : Int) : List Char :=
  match i with
  | Int.ofNat n => natDigits (n + 1) n []
  | Int.negSucc n => '-' :: natDigits (n + 2) (n + 1) []

/-- Lower-case hexadecimal digit of a value below 16. -/
def hexDigit (n : Nat) : Char :=
  if n < 10 then Char.ofNat ('0'.toNat + n) else Char.ofNat ('a'.toNat + (n - 10))

end strconv

/-! ## `encoding/json`: the scanner (`scanner.go`) -/

namespace json

/-- Entries of the scanner's `parseState` stack. -/
inductive ParseState
  | parseObjectKey
  | parseObjectValue
  | parseArrayValue
deriving DecidableEq, Repr

/-- Opcodes returned by the scanner's step function. -/
inductive Op
  | scanContinue
  | scanBeginLiteral
  | scanBeginObject
  | scanObjectKey
  | scanObjectValue
  | scanEndObject
  | scanBeginArray
  | scanArrayValue
  | scanEndArray
  | scanSkipSpace
  | scanEnd
  | scanError
deriving DecidableEq, Repr

/-- The scanner's step functions (`s.step`), by name. -/
inductive Step
  | stateBeginValueOrEmpty
  | stateBeginValue
  | stateBeginStringOrEmpty
  | stateBeginString
  | stateEndValue
  | stateEndTop
  | stateInString
  | stateInStringEsc
  | stateInStringEscU
  | stateInStringEscU1
  | stateInStringEscU12
  | stateInStringEscU123
  | stateNeg
  | state1
  | state0
  | stateDot
  | stateDot0
  | stateE
  | stateESign
  | stateE0
  | stateT
  | stateTr
  | stateTru
  | stateF
  | stateFa
  | stateFal
  | stateFals
  | stateN
  | stateNu
  | stateNul
  | stateError
deriving DecidableEq, Repr

/-- The JSON scanner: current step function, the `endTop` flag (the top-level
value has ended), the stack of open composites (innermost first) and the
syntax error recorded by `s.error`. -/
structure Scanner where
  step : Step
  endTop : Bool
  parseState : List ParseState
  err : Option String
deriving DecidableEq, Repr

/-- Nesting limit of the scanner (`maxNestingDepth`). -/
def maxNestingDepth : Nat := 10000

/-- Scanner after `s.reset()`. -/
def Scanner.reset : Scanner := ⟨Step.stateBeginValue, false, [], none⟩

/-- Go `isSpace`. -/
def isSpace (c : Char) : Bool := c == ' ' || c == '\t' || c == '\r' || c == '\n'

/-- First byte of the UTF-8 encoding of a character: the byte the scanner is
looking at when it meets a character it rejects. -/
def firstByte (c : Char) : Nat :=
  let n := c.toNat
  if n < 0x80 then n
  else if n < 0x800 then 0xC0 + n / 0x40
  else if n < 0x10000 then 0xE0 + n / 0x1000
  else 0xF0 + n / 0x40000

/-- Body of `strconv.Quote(string(b))` between the double quotes, for a byte
value `b` read as a rune. -/
def quoteByte (b : Nat) : List Char :=
  if b = 0x22 then ['\\', '"']
  else if b = 0x5C then ['\\', '\\']
  else if (0x20 ≤ b ∧ b ≤ 0x7E) ∨ (0xA1 ≤ b ∧ b ≤ 0xFF ∧ b ≠ 0xAD) then [Char.ofNat b]
  else if b = 7 then ['\\', 'a']
  else if b = 8 then ['\\', 'b']
  else if b = 12 then ['\\', 'f']
  else if b = 10 then ['\\', 'n']
  else if b = 13 then ['\\', 'r']
  else if b = 9 then ['\\', 't']
  else if b = 11 then ['\\', 'v']
  else if b < 0x20 ∨ b = 0x7F then
    ['\\', 'x', strconv.hexDigit (b / 16), strconv.hexDigit (b % 16)]
  else ['\\', 'u', '0', '0', strconv.hexDigit (b / 16), strconv.hexDigit (b % 16)]

/-- Go `quoteChar`: the offending byte as it appears in a syntax error. -/
def quoteChar (c : Char) : String :=
  if c = '\'' then "'\\''"
  else if c = '"' then "'\"'"
  else ⟨'\'' :: (quoteByte (firstByte c) ++ ['\''])⟩

/-- Go `(*scanner).error`: record a syntax error, switch to `stateError`. -/
def Scanner.error (s : Scanner) (c : Char) (context : String) : Scanner × Op :=
  ({ s with step := Step.stateError,
            err := some ("invalid character " ++ quoteChar c ++ " " ++ context) },
   Op.scanError)

/-- Go `(*scanner).pushParseState`. -/
def Scanner.pushParseState (s : Scanner) (c : Char) (newParseState : ParseState)
    (successState : Op) : Scanner × Op :=
  let s1 := { s with parseState := newParseState :: s.parseState }
  if s1.parseState.length ≤ maxNestingDepth then (s1, successState)
  else s1.error c "exceeded max depth"

/-- Go `(*scanner).popParseState`. -/
def Scanner.popParseState (s : Scanner) : Scanner :=
  match s.parseState.tail with
  | [] => { s with parseState := [], step := Step.stateEndTop, endTop := true }
  | p :: ps => { s with parseState := p :: ps, step := Step.stateEndValue }

/-- Go `stateEndTop`: after the top-level value only white space is legal; a
different byte records an error, and either way the opcode is `scanEnd`. -/
def stateEndTop (s : Scanner) (c : Char) : Scanner × Op :=
  if isSpace c then (s, Op.scanEnd)
  else ((s.error c "after top-level value").1, Op.scanEnd)

/-- Go `stateEndValue`: the state after completing a value. -/
def stateEndValue (s : Scanner) (c : Char) : Scanner × Op :=
  match s.parseState with
  | [] => stateEndTop { s with step := Step.stateEndTop, endTop := true } c
  | ps :: rest =>
    if isSpace c then ({ s with step := Step.stateEndValue }, Op.scanSkipSpace)
    else
      match ps with
      | ParseState.parseObjectKey =>
        if c = ':' then
          ({ s with parseState := ParseState.parseObjectValue :: rest,
                    step := Step.stateBeginValue }, Op.scanObjectKey)
        else s.error c "after object key"
      | ParseState.parseObjectValue =>
        if c = ',' then
          ({ s with parseState := ParseState.parseObjectKey :: rest,
                    step := Step.stateBeginString }, Op.scanObjectValue)
        else if c = '}' then (s.popParseState, Op.scanEndObject)
        else s.error c "after object key:value pair"
      | ParseState.parseArrayValue =>
        if c = ',' then ({ s with step := Step.stateBeginValue }, Op.scanArrayValue)
        else if c = ']' then (s.popParseState, Op.scanEndArray)
        else s.error c "after array element"

/-- Go `stateBeginValue`: the state at the beginning of a value. -/
def stateBeginValue (s : Scanner) (c : Char) : Scanner × Op :=
  if isSpace c then (s, Op.scanSkipSpace)
  else if c = '{' then
    { s with step := Step.stateBeginStringOrEmpty }.pushParseState c
      ParseState.parseObjectKey Op.scanBeginObject
  else if c = '[' then
    { s with step := Step.stateBeginValueOrEmpty }.pushParseState c
      ParseState.parseArrayValue Op.scanBeginArray
  else if c = '"' then ({ s with step := Step.stateInString }, Op.scanBeginLiteral)
  else if c = '-' then ({ s with step := Step.stateNeg }, Op.scanBeginLiteral)
  else if c = '0' then ({ s with step := Step.state0 }, Op.scanBeginLiteral)
  else if c = 't' then ({ s with step := Step.stateT }, Op.scanBeginLiteral)
  else if c = 'f' then ({ s with step := Step.stateF }, Op.scanBeginLiteral)
  else if c = 'n' then ({ s with step := Step.stateN }, Op.scanBeginLiteral)
  else if '1' ≤ c ∧ c ≤ '9' then ({ s with step := Step.state1 }, Op.scanBeginLiteral)
  else s.error c "looking for beginning of value"

/-- Go `stateBeginValueOrEmpty`: the state after reading `[`. -/
def stateBeginValueOrEmpty (s : Scanner) (c : Char) : Scanner × Op :=
  if isSpace c then (s, Op.scanSkipSpace)
  else if c = ']' then stateEndValue s c
  else stateBeginValue s c

/-- Go `stateBeginString`: the state after reading `{"key": value,`. -/
def stateBeginString (s : Scanner) (c : Char) : Scanner × Op :=
  if isSpace c then (s, Op.scanSkipSpace)
  else if c = '"' then ({ s with step := Step.stateInString }, Op.scanBeginLiteral)
  else s.error c "looking for beginning of object key string"

/-- Go `stateBeginStringOrEmpty`: the state after reading `{`. -/
def stateBeginStringOrEmpty (s : Scanner) (c : Char) : Scanner × Op :=
  if isSpace c then (s, Op.scanSkipSpace)
  else if c = '}' then
    stateEndValue { s with parseState := ParseState.parseObjectValue :: s.parseState.tail } c
  else stateBeginString s c

/-- Hexadecimal digit test used by the `\u` escape states. -/
def isHex (c : Char) : Bool :=
  ('0' ≤ c ∧ c ≤ '9') || ('a' ≤ c ∧ c ≤ 'f') || ('A' ≤ c ∧ c ≤ 'F')

/-- Decimal digit test. -/
def isDigit (c : Char) : Bool := '0' ≤ c ∧ c ≤ '9'

/-- Go `stateInString`. -/
def stateInString (s : Scanner) (c : Char) : Scanner × Op :=
  if c = '"' then ({ s with step := Step.stateEndValue }, Op.scanContinue)
  else if c = '\\' then ({ s with step := Step.stateInStringEsc }, Op.scanContinue)
  else if c.toNat < 0x20 then s.error c "in string literal"
  else (s, Op.scanContinue)

/-- Go `stateInStringEsc`. -/
def stateInStringEsc (s : Scanner) (c : Char) : Scanner × Op :=
  if c = 'b' ∨ c = 'f' ∨ c = 'n' ∨ c = 'r' ∨ c = 't' ∨ c = '\\' ∨ c = '/' ∨ c = '"' then
    ({ s with step := Step.stateInString }, Op.scanContinue)
  else if c = 'u' then ({ s with step := Step.stateInStringEscU }, Op.scanContinue)
  else s.error c "in string escape code"

/-- Go `stateInStringEscU` .. `stateInStringEscU123`: one hexadecimal digit,
then on to `next`. -/
def stateHex (next : Step) (s : Scanner) (c : Char) : Scanner × Op :=
  if isHex c then ({ s with step := next }, Op.scanContinue)
  else s.error c "in \\u hexadecimal character escape"

/-- Go `stateE0`. -/
def stateE0 (s : Scanner) (c : Char) : Scanner × Op :=
  if isDigit c then (s, Op.scanContinue) else stateEndValue s c

/-- Go `stateESign`. -/
def stateESign (s : Scanner) (c : Char) : Scanner × Op :=
  if isDigit c then ({ s with step := Step.stateE0 }, Op.scanContinue)
  else s.error c "in exponent of numeric literal"

/-- Go `stateE`. -/
def stateE (s : Scanner) (c : Char) : Scanner × Op :=
  if c = '+' ∨ c = '-' then ({ s with step := Step.stateESign }, Op.scanContinue)
  else stateESign s c

/-- Go `stateDot0`. -/
def stateDot0 (s : Scanner) (c : Char) : Scanner × Op :=
  if isDigit c then (s, Op.scanContinue)
  else if c = 'e' ∨ c = 'E' then ({ s with step := Step.stateE }, Op.scanContinue)
  else stateEndValue s c

/-- Go `stateDot`. -/
def stateDot (s : Scanner) (c : Char) : Scanner × Op :=
  if isDigit c then ({ s with step := Step.stateDot0 }, Op.scanContinue)
  else s.error c "after decimal point in numeric literal"

/-- Go `state0`. -/
def state0 (s : Scanner) (c : Char) : Scanner × Op :=
  if c = '.' then ({ s with step := Step.stateDot }, Op.scanContinue)
  else if c = 'e' ∨ c = 'E' then ({ s with step := Step.stateE }, Op.scanContinue)
  else stateEndValue s c

/-- Go `state1`. -/
def state1 (s : Scanner) (c : Char) : Scanner × Op :=
  if isDigit c then ({ s with step := Step.state1 }, Op.scanContinue)
  else state0 s c

/-- Go `stateNeg`. -/
def stateNeg (s : Scanner) (c : Char) : Scanner × Op :=
  if c = '0' then ({ s with step := Step.state0 }, Op.scanContinue)
  else if '1' ≤ c ∧ c ≤ '9' then ({ s with step := Step.state1 }, Op.scanContinue)
  else s.error c "in numeric literal"

/-- Go `stateT` .. `stateNul`: the next letter of `true`, `false` or `null`. -/
def stateLit (want : Char) (next : Step) (context : String) (s : Scanner) (c : Char) :
    Scanner × Op :=
  if c = want then ({ s with step := next }, Op.scanContinue)
  else s.error c context

/-- One scanner transition: `s.step(s, c)`. -/
def Scanner.next (s : Scanner) (c : Char) : Scanner × Op :=
  match s.step with
  | Step.stateBeginValueOrEmpty => stateBeginValueOrEmpty s c
  | Step.stateBeginValue => stateBeginValue s c
  | Step.stateBeginStringOrEmpty => stateBeginStringOrEmpty s c
  | Step.stateBeginString => stateBeginString s c
  | Step.stateEndValue => stateEndValue s c
  | Step.stateEndTop => stateEndTop s c
  | Step.stateInString => stateInString s c
  | Step.stateInStringEsc => stateInStringEsc s c
  | Step.stateInStringEscU => stateHex Step.stateInStringEscU1 s c
  | Step.stateInStringEscU1 => stateHex Step.stateInStringEscU12 s c
  | Step.stateInStringEscU12 => stateHex Step.stateInStringEscU123 s c
  | Step.stateInStringEscU123 => stateHex Step.stateInString s c
  | Step.stateNeg => stateNeg s c
  | Step.state1 => state1 s c
  | Step.state0 => state0 s c
  | Step.stateDot => stateDot s c
  | Step.stateDot0 => stateDot0 s c
  | Step.stateE => stateE s c
  | Step.stateESign => stateESign s c
  | Step.stateE0 => stateE0 s c
  | Step.stateT => stateLit 'r' Step.stateTr "in literal true (expecting 'r')" s c
  | Step.stateTr => stateLit 'u' Step.stateTru "in literal true (expecting 'u')" s c
  | Step.stateTru => stateLit 'e' Step.stateEndValue "in literal true (expecting 'e')" s c
  | Step.stateF => stateLit 'a' Step.stateFa "in literal false (expecting 'a')" s c
  | Step.stateFa => stateLit 'l' Step.stateFal "in literal false (expecting 'l')" s c
  | Step.stateFal => stateLit 's' Step.stateFals "in literal false (expecting 's')" s c
  | Step.stateFals => stateLit 'e' Step.stateEndValue "in literal false (expecting 'e')" s c
  | Step.stateN => stateLit 'u' Step.stateNu "in literal null (expecting 'u')" s c
  | Step.stateNu => stateLit 'l' Step.stateNul "in literal null (expecting 'l')" s c
  | Step.stateNul => stateLit 'l' Step.stateEndValue "in literal null (expecting 'l')" s c
  | Step.stateError => (s, Op.scanError)

/-- Outcome of `(*Decoder).readValue`: the number of characters that make up
the next value, or the error it returns. -/
inductive ReadResult
  | value (n : Nat)
  | fail (msg : String)
deriving DecidableEq, Repr

/-- The scanning loop of `(*Decoder).readValue` over the unread input `buf`;
`scanp` counts the characters already scanned and `all` is the whole buffer.
`scanEnd` stops before the current character, the closing bracket of a
top-level object or array stops after it, and at end of input the scanner is
fed one space. -/
def readValueLoop (all : List Char) : Scanner → List Char → Nat → ReadResult
  | s, [], scanp =>
    if (s.next ' ').2 = Op.scanEnd then ReadResult.value scanp
    else if all.any (fun c => !isSpace c) then ReadResult.fail "unexpected EOF"
    else ReadResult.fail "EOF"
  | s, c :: rest, scanp =>
    match s.next c with
    | (_, Op.scanEnd) => ReadResult.value scanp
    | (s1, Op.scanEndObject) =>
      match stateEndValue s1 ' ' with
      | (_, Op.scanEnd) => ReadResult.value (scanp + 1)
      | (s2, _) => readValueLoop all s2 rest (scanp + 1)
    | (s1, Op.scanEndArray) =>
      match stateEndValue s1 ' ' with
      | (_, Op.scanEnd) => ReadResult.value (scanp + 1)
      | (s2, _) => readValueLoop all s2 rest (scanp + 1)
    | (s1, Op.scanError) => ReadResult.fail (s1.err.getD "")
    | (s1, _) => readValueLoop all s1 rest (scanp + 1)

/-- Go `(*Decoder).readValue` on a fresh decoder whose reader yields `buf`. -/
def readValue (buf : List Char) : ReadResult :=
  readValueLoop buf Scanner.reset buf 0

end json

/-! ## The program's data model (`main.go`, lines 14-18) -/

namespace myapp

/-- Go `type Device struct { ID int; Mac string; Firmware string }`. -/
structure Device where
  ID : Int
  Mac : String
  Firmware : String
deriving DecidableEq, Repr

end myapp

/-! ## `encoding/json`: decoding into a `Device` (`decode.go`, `stream.go`) -/

namespace json
open myapp

/-- Message of the panics the decoder raises when its second pass disagrees
with the first (`phasePanicMsg`). -/
def phasePanicMsg : String := "JSON decoder out of sync - data changing underfoot?"

/-- Go `(*scanner).eof`. -/
def Scanner.eof (s : Scanner) : Scanner × Op :=
  if s.err.isSome then (s, Op.scanError)
  else if s.endTop then (s, Op.scanEnd)
  else
    let s1 := (s.next ' ').1
    if s1.endTop then (s1, Op.scanEnd)
    else if s1.err.isSome then (s1, Op.scanError)
    else ({ s1 with err := some "unexpected end of JSON input" }, Op.scanError)

/-- The decoder's second pass (`decodeState`): its scanner, the opcode of the
character read last, that character (`data[off-1]`), the unread input
(`data[off:]`) and the first error saved by `saveError`. -/
structure DecodeState where
  scan : Scanner
  opcode : Op
  prev : Char
  data : List Char
  savedError : Option String
deriving DecidableEq, Repr

/-- Go `(*decodeState).saveError`: keep the first error only. -/
def DecodeState.saveError (d : DecodeState) (msg : String) : DecodeState :=
  match d.savedError with
  | some _ => d
  | none => { d with savedError := some msg }

/-- Loop of `(*decodeState).scanWhile(op)` over the unread input. -/
def scanWhileLoop (op : Op) (d : DecodeState) : List Char → DecodeState
  | [] =>
    let r := d.scan.eof
    { d with scan := r.1, opcode := r.2, data := [] }
  | c :: rest =>
    let r := d.scan.next c
    if r.2 ≠ op then { d with scan := r.1, opcode := r.2, prev := c, data := rest }
    else scanWhileLoop op { d with scan := r.1 } rest

/-- Go `(*decodeState).scanWhile(op)`. -/
def DecodeState.scanWhile (d : DecodeState) (op : Op) : DecodeState :=
  scanWhileLoop op d d.data

/-- Go `(*decodeState).scanNext`. -/
def DecodeState.scanNext (d : DecodeState) : DecodeState :=
  match d.data with
  | [] =>
    let r := d.scan.eof
    { d with scan := r.1, opcode := r.2 }
  | c :: rest =>
    let r := d.scan.next c
    { d with scan := r.1, opcode := r.2, prev := c, data := rest }

/-- Loop of `(*decodeState).skip`: step until the parse stack is shorter than
`depth`.  Running off the input is the library's index panic (`none`). -/
def skipLoop (depth : Nat) (d : DecodeState) : List Char → Option DecodeState
  | [] => none
  | c :: rest =>
    let r := d.scan.next c
    if r.1.parseState.length < depth then
      some { d with scan := r.1, opcode := r.2, prev := c, data := rest }
    else skipLoop depth { d with scan := r.1 } rest

/-- Go `(*decodeState).skip`: scan to the end of the composite just opened. -/
def DecodeState.skip (d : DecodeState) : Option DecodeState :=
  skipLoop d.scan.parseState.length d d.data

/-- String branch of `rescanLiteral`: the characters up to and including the
closing quote (a backslash protects the next character), and what follows. -/
def rescanString : List Char → List Char × List Char
  | [] => ([], [])
  | c :: rest =>
    if c = '"' then (['"'], rest)
    else if c = '\\' then
      match rest with
      | [] => (['\\'], [])
      | e :: rest1 =>
        let r := rescanString rest1
        ('\\' :: e :: r.1, r.2)
    else
      let r := rescanString rest
      (c :: r.1, r.2)

/-- Characters a number literal may contain, as `rescanLiteral` tests them. -/
def isNumberChar (c : Char) : Bool :=
  isDigit c || c == '.' || c == 'e' || c == 'E' || c == '+' || c == '-'

/-- Go `(*decodeState).rescanLiteral`: with the first character of a literal
already read (`d.prev`), find its end, then feed the character after it to
`stateEndValue`.  Returns the literal (`data[start:readIndex]`) as well. -/
def DecodeState.rescanLiteral (d : DecodeState) : List Char × DecodeState :=
  let split : List Char × List Char :=
    if d.prev = '"' then rescanString d.data
    else if isDigit d.prev ∨ d.prev = '-' then
      (d.data.takeWhile isNumberChar, d.data.dropWhile isNumberChar)
    else if d.prev = 't' then (d.data.take 3, d.data.drop 3)
    else if d.prev = 'f' then (d.data.take 4, d.data.drop 4)
    else if d.prev = 'n' then (d.data.take 3, d.data.drop 3)
    else ([], d.data)
  let item := d.prev :: split.1
  match split.2 with
  | [] => (item, { d with opcode := Op.scanEnd, data := [] })
  | c :: rest =>
    let r := stateEndValue d.scan c
    (item, { d with scan := r.1, opcode := r.2, prev := c, data := rest })

/-- Value of a hexadecimal digit. -/
def hexVal (c : Char) : Option Nat :=
  if '0' ≤ c ∧ c ≤ '9' then some (c.toNat - '0'.toNat)
  else if 'a' ≤ c ∧ c ≤ 'f' then some (c.toNat - 'a'.toNat + 10)
  else if 'A' ≤ c ∧ c ≤ 'F' then some (c.toNat - 'A'.toNat + 10)
  else none

/-- Go `getu4`: the code unit of a leading `\uXXXX`, `none` (Go: `-1`) when
the input does not start with one. -/
def getu4 : List Char → Option Nat
  | '\\' :: 'u' :: a :: b :: c :: d :: _ =>
    match hexVal a, hexVal b, hexVal c, hexVal d with
    | some x, some y, some z, some w => some (((x * 16 + y) * 16 + z) * 16 + w)
    | _, _, _, _ => none
  | _ => none

/-- Go `utf16.IsSurrogate`. -/
def isSurrogate (r : Nat) : Bool := 0xD800 ≤ r ∧ r < 0xE000

/-- Go `utf16.DecodeRune`: the code point of a surrogate pair, `none` (Go:
U+FFFD) when the two code units are not a high and a low surrogate. -/
def decodeSurrogates (r1 r2 : Nat) : Option Nat :=
  if 0xD800 ≤ r1 ∧ r1 < 0xDC00 ∧ 0xDC00 ≤ r2 ∧ r2 < 0xE000 then
    some ((r1 - 0xD800) * 0x400 + (r2 - 0xDC00) + 0x10000)
  else none

/-- The Unicode replacement character U+FFFD. -/
def replacementChar : Char := Char.ofNat 0xFFFD

/-- Loop of Go `unquoteBytes` over the characters between the quotes: resolve
escapes; an unpaired surrogate escape becomes U+FFFD.  `none` is the library's
`ok = false`. -/
def unquoteLoop : Nat → List Char → Option (List Char)
  | 0, _ => none
  | _ + 1, [] => some []
  | fuel + 1, c :: rest =>
    if c = '\\' then
      match rest with
      | [] => none
      | e :: rest1 =>
        if e = 'u' then
          match getu4 (c :: rest) with
          | none => none
          | some rr =>
            let after := rest1.drop 4
            if isSurrogate rr then
              match (getu4 after).bind (decodeSurrogates rr) with
              | some dec => (unquoteLoop fuel (after.drop 6)).map (Char.ofNat dec :: ·)
              | none => (unquoteLoop fuel after).map (replacementChar :: ·)
            else (unquoteLoop fuel after).map (Char.ofNat rr :: ·)
        else
          let plain : Option Char :=
            if e = '"' ∨ e = '\\' ∨ e = '/' ∨ e = '\'' then some e
            else if e = 'b' then some (Char.ofNat 8)
            else if e = 'f' then some (Char.ofNat 12)
            else if e = 'n' then some '\n'
            else if e = 'r' then some '\r'
            else if e = 't' then some '\t'
            else none
          match plain with
          | none => none
          | some x => (unquoteLoop fuel rest1).map (x :: ·)
    else if c = '"' ∨ c.toNat < 0x20 then none
    else (unquoteLoop fuel rest).map (c :: ·)

/-- Go `unquoteBytes`: the text of a quoted string literal. -/
def unquote (item : List Char) : Option (List Char) :=
  match item with
  | '"' :: rest =>
    if rest.getLast? = some '"' then unquoteLoop (rest.length + 1) rest.dropLast
    else none
  | _ => none

/-- Destination of a decoded value (`reflect.Value`): the `Device` itself, one
of its fields, or the invalid value used for keys that name no field. -/
inductive Target
  | device
  | fieldID
  | fieldMac
  | fieldFirmware
  | invalid
deriving DecidableEq, Repr

/-- Go `foldName` on one character: ASCII letters go to upper case; the only
other runes that fold to an ASCII letter are U+017F (to `S`) and U+212A (to
`K`).  Every other rune folds to a non-ASCII rune, which no field name
contains, and is left as it is. -/
def foldChar (c : Char) : Char :=
  if 'a' ≤ c ∧ c ≤ 'z' then Char.ofNat (c.toNat - 32)
  else if c = Char.ofNat 0x17F then 'S'
  else if c = Char.ofNat 0x212A then 'K'
  else c

/-- Go `foldName`. -/
def foldName (key : List Char) : List Char := key.map foldChar

/-- Field lookup of `(*decodeState).object` for `Device`, whose JSON names are
`id`, `mac` and `firmware`: exact name first (`byExactName`), then the folded
name (`byFoldedName`). -/
def findField (key : List Char) : Target :=
  if key = "id".data then Target.fieldID
  else if key = "mac".data then Target.fieldMac
  else if key = "firmware".data then Target.fieldFirmware
  else if foldName key = "ID".data then Target.fieldID
  else if foldName key = "MAC".data then Target.fieldMac
  else if foldName key = "FIRMWARE".data then Target.fieldFirmware
  else Target.invalid

/-- Text of `UnmarshalTypeError.Error()` for a value of JSON kind `value`
stored into `tgt` (with the error context `addErrorContext` attaches). -/
def typeError (value : String) (tgt : Target) : String :=
  match tgt with
  | Target.fieldID =>
    "json: cannot unmarshal " ++ value ++ " into Go struct field Device.id of type int"
  | Target.fieldMac =>
    "json: cannot unmarshal " ++ value ++ " into Go struct field Device.mac of type string"
  | Target.fieldFirmware =>
    "json: cannot unmarshal " ++ value ++
      " into Go struct field Device.firmware of type string"
  | _ => "json: cannot unmarshal " ++ value ++ " into Go value of type main.Device"

/-- Go `(*decodeState).literalStore(item, v, false)` for the destinations of a
`Device`: `null` changes nothing; a string goes into a string field, an
integer literal within 64 bits into `ID`; anything else saves a type error.
`none` is the library's panic. -/
def literalStore (item : List Char) (tgt : Target) (d : DecodeState) (dev : Device) :
    Option (DecodeState × Device) :=
  match item with
  | [] => none
  | c :: _ =>
    if c = 'n' then some (d, dev)
    else if c = 't' ∨ c = 'f' then some (d.saveError (typeError "bool" tgt), dev)
    else if c = '"' then
      match unquote item with
      | none => none
      | some s =>
        match tgt with
        | Target.fieldMac => some (d, { dev with Mac := ⟨s⟩ })
        | Target.fieldFirmware => some (d, { dev with Firmware := ⟨s⟩ })
        | _ => some (d.saveError (typeError "string" tgt), dev)
    else
      if c ≠ '-' ∧ ¬ ('0' ≤ c ∧ c ≤ '9') then none
      else
        match tgt with
        | Target.fieldID =>
          match strconv.parseInt64 item with
          | some n => some (d, { dev with ID := n })
          | none => some (d.saveError (typeError ("number " ++ ⟨item⟩) tgt), dev)
        | _ => some (d.saveError (typeError "number" tgt), dev)

/-- Go `(*decodeState).value(v)` where `v` is a field of `Device` or invalid:
an array or object is a type error for a valid `v` and is skipped; a literal
is rescanned and stored when `v` is valid. -/
def valueField (tgt : Target) (d : DecodeState) (dev : Device) :
    Option (DecodeState × Device) :=
  if d.opcode = Op.scanBeginArray then
    let d1 := if tgt = Target.invalid then d else d.saveError (typeError "array" tgt)
    d1.skip.map (fun d2 => (d2.scanNext, dev))
  else if d.opcode = Op.scanBeginObject then
    let d1 := if tgt = Target.invalid then d else d.saveError (typeError "object" tgt)
    d1.skip.map (fun d2 => (d2.scanNext, dev))
  else if d.opcode = Op.scanBeginLiteral then
    let r := d.rescanLiteral
    if tgt = Target.invalid then some (r.2, dev) else literalStore r.1 tgt r.2 dev
  else none

/-- The loop of Go `(*decodeState).object(v)` for `v` the `Device`: read a
key, find its field, read the colon, decode the value into the field, then
expect a comma or the closing brace.  `fuel` bounds the number of members. -/
def objectLoop : Nat → DecodeState → Device → Option (DecodeState × Device)
  | 0, _, _ => none
  | fuel + 1, d, dev =>
    let d1 := d.scanWhile Op.scanSkipSpace
    if d1.opcode = Op.scanEndObject then some (d1, dev)
    else if d1.opcode ≠ Op.scanBeginLiteral then none
    else
      let r := d1.rescanLiteral
      match unquote r.1 with
      | none => none
      | some key =>
        let tgt := findField key
        let d2 := if r.2.opcode = Op.scanSkipSpace then r.2.scanWhile Op.scanSkipSpace else r.2
        if d2.opcode ≠ Op.scanObjectKey then none
        else
          match valueField tgt (d2.scanWhile Op.scanSkipSpace) dev with
          | none => none
          | some (d3, dev1) =>
            let d4 :=
              if d3.opcode = Op.scanSkipSpace then d3.scanWhile Op.scanSkipSpace else d3
            if d4.opcode = Op.scanEndObject then some (d4, dev1)
            else if d4.opcode ≠ Op.scanObjectValue then none
            else objectLoop fuel d4 dev1

/-- Go `(*decodeState).value(v)` for `v` the `Device` being decoded. -/
def valueDevice (d : DecodeState) (dev : Device) : Option (DecodeState × Device) :=
  if d.opcode = Op.scanBeginArray then
    (d.saveError (typeError "array" Target.device)).skip.map (fun d2 => (d2.scanNext, dev))
  else if d.opcode = Op.scanBeginObject then
    (objectLoop (d.data.length + 1) d dev).map (fun r => (r.1.scanNext, r.2))
  else if d.opcode = Op.scanBeginLiteral then
    let r := d.rescanLiteral
    literalStore r.1 Target.device r.2 dev
  else none

/-- Go `(*decodeState).unmarshal(&device)` on the text of one JSON value: the
decoded device, or the first saved error.  The second pass panics (`none`
above) only on text the first pass, `readValue`, did not accept; such a panic
is reported here as an error carrying `phasePanicMsg`. -/
def unmarshal (data : List Char) (dev : Device) : Except String Device :=
  let d0 : DecodeState := ⟨Scanner.reset, Op.scanContinue, ' ', data, none⟩
  match valueDevice (d0.scanWhile Op.scanSkipSpace) dev with
  | none => Except.error phasePanicMsg
  | some (d, dev1) =>
    match d.savedError with
    | some msg => Except.error msg
    | none => Except.ok dev1

/-- Go `json.NewDecoder(r.Body).Decode(&device)` with `device` the zero
`Device`: read the first JSON value of the body (`readValue`), then unmarshal
it.  Whatever follows that value stays unread in the decoder's buffer. -/
def Decode (body : String) : Except String Device :=
  match readValue body.data with
  | ReadResult.fail msg => Except.error msg
  | ReadResult.value n => unmarshal (body.data.take n) ⟨0, "", ""⟩

end json

/-! ## `encoding/json`: encoding a `[]Device` (`encode.go`) -/

namespace json
open myapp

/-- Go `appendString` with `escapeHTML` on, one character: quote, backslash
and the usual control characters get their two-character escape; the other
control characters and `<`, `>`, `&` become a `\u00XX` escape; the line and
paragraph separators (code points 0x2028, 0x2029) become a `\u202X` escape;
every other character is copied.  (Before Go 1.22 backspace and form feed
were written as `\u0008` and `\u000c`.) -/
def encodeChar (c : Char) : List Char :=
  let n := c.toNat
  if n < 0x80 then
    if 0x20 ≤ n ∧ c ≠ '"' ∧ c ≠ '\\' ∧ c ≠ '<' ∧ c ≠ '>' ∧ c ≠ '&' then [c]
    else if c = '\\' ∨ c = '"' then ['\\', c]
    else if n = 8 then ['\\', 'b']
    else if n = 12 then ['\\', 'f']
    else if c = '\n' then ['\\', 'n']
    else if c = '\r' then ['\\', 'r']
    else if c = '\t' then ['\\', 't']
    else ['\\', 'u', '0', '0', strconv.hexDigit (n / 16), strconv.hexDigit (n % 16)]
  else if n = 0x2028 then ['\\', 'u', '2', '0', '2', '8']
  else if n = 0x2029 then ['\\', 'u', '2', '0', '2', '9']
  else [c]

/-- Loop of Go `appendString` over the characters of the string. -/
def encodeStringLoop : List Char → List Char
  | [] => []
  | c :: rest => encodeChar c ++ encodeStringLoop rest

/-- Go `appendString`: a quoted JSON string. -/
def encodeString (s : String) : List Char :=
  '"' :: (encodeStringLoop s.data ++ ['"'])

/-- Go `structEncoder.encode` for `Device`: the three fields under their JSON
names, in declaration order. -/
def encodeDevice (d : Device) : List Char :=
  "\x7b\"id\":".data ++ strconv.formatInt d.ID ++
  ",\"mac\":".data ++ encodeString d.Mac ++
  ",\"firmware\":".data ++ encodeString d.Firmware ++ ['}']

/-- Loop of Go `arrayEncoder.encode`: element `i` is preceded by a comma when
`i > 0`. -/
def encodeElems : Nat → List Device → List Char
  | _, [] => []
  | i, d :: rest =>
    (if i > 0 then [','] else []) ++ encodeDevice d ++ encodeElems (i + 1) rest

/-- Go `json.Marshal(devices)` for the (never nil) slice `devices`.  None of
the failures `Marshal` can report (unsupported type or value, a failing
`Marshaler`) can arise for a `[]Device`, so the error is always nil. -/
def Marshal (devices : List Device) : Except String String :=
  Except.ok ⟨'[' :: (encodeElems 0 devices ++ [']'])⟩

end json

/-! ## `net/http`: requests, headers and the response writer -/

namespace http

/-- Go `http.Request`, as far as the handlers read it: `r.Method`,
`r.URL.Path` and the bytes of `r.Body`. -/
structure Request where
  Method : String
  Path : String
  Body : String
deriving DecidableEq, Repr

/-- Go `http.Header`, restricted to single-valued keys. -/
abbrev Header := List (String × String)

/-- Go `Header.Set(key, value)` for a key in canonical form. -/
def Header.Set : Header → String → String → Header
  | [], key, value => [(key, value)]
  | (k, v) :: rest, key, value =>
    if k = key then (k, value) :: rest else (k, v) :: Header.Set rest key value

/-- Go `Header.Get(key)`: the value, or the empty string. -/
def Header.Get : Header → String → String
  | [], _ => ""
  | (k, v) :: rest, key => if k = key then v else Header.Get rest key

/-- A `ResponseWriter`: the header map the handler edits, whether the status
line has been written, the status and the headers frozen at that moment, and
the body written so far. -/
structure ResponseWriter where
  header : Header
  wroteHeader : Bool
  status : Nat
  sent : Header
  body : String
deriving DecidableEq, Repr

/-- A fresh `ResponseWriter`, as the server hands it to a handler. -/
def ResponseWriter.new : ResponseWriter := ⟨[], false, 0, [], ""⟩

/-- Go `w.Header().Set(key, value)`. -/
def ResponseWriter.SetHeader (w : ResponseWriter) (key value : String) : ResponseWriter :=
  { w with header := Header.Set w.header key value }

/-- Go `w.WriteHeader(code)`: the first call fixes the status and the
headers; later calls are ignored. -/
def ResponseWriter.WriteHeader (w : ResponseWriter) (code : Nat) : ResponseWriter :=
  if w.wroteHeader then w
  else { w with wroteHeader := true, status := code, sent := w.header }

/-- Go `w.Write(data)`: writes status 200 first if no status was written;
the returned error is `none` (the write succeeds). -/
def ResponseWriter.Write (w : ResponseWriter) (data : String) :
    ResponseWriter × Option String :=
  let w1 := if w.wroteHeader then w else w.WriteHeader 200
  ({ w1 with body := w1.body ++ data }, none)

def StatusOK : Nat := 200
def StatusCreated : Nat := 201
def StatusAccepted : Nat := 202
def StatusBadRequest : Nat := 400
def StatusNotFound : Nat := 404
def StatusMethodNotAllowed : Nat := 405
def StatusInternalServerError : Nat := 500
def StatusBadGateway : Nat := 502

/-- Go `http.Error(w, error, code)`: plain-text content type, `nosniff`, the
status, then the message and a newline.  (It also deletes `Content-Length`,
which no handler of this program sets.) -/
def Error (w : ResponseWriter) (error : String) (code : Nat) : ResponseWriter :=
  let w1 := w.SetHeader "Content-Type" "text/plain; charset=utf-8"
  let w2 := w1.SetHeader "X-Content-Type-Options" "nosniff"
  ((w2.WriteHeader code).Write (error ++ "\n")).1

/-- Go `http.NotFound(w, r)`. -/
def NotFound (w : ResponseWriter) : ResponseWriter :=
  Error w "404 page not found" StatusNotFound

end http

/-! ## `prometheus`: labelled instruments -/

namespace prometheus

/-- A `GaugeVec` or `CounterVec` with one label: the children created so far,
each with its label value and its current value. -/
abbrev Vec := List (String × Nat)

/-- Value of the child labelled `l`; 0 when no such child exists yet. -/
def Vec.value : Vec → String → Nat
  | [], _ => 0
  | (k, v) :: rest, l => if k = l then v else Vec.value rest l

/-- Go `vec.With(Labels{..: l}).Set(x)`: get or create the child, set it. -/
def Vec.Set : Vec → String → Nat → Vec
  | [], l, x => [(l, x)]
  | (k, v) :: rest, l, x => if k = l then (k, x) :: rest else (k, v) :: Vec.Set rest l x

/-- Go `vec.With(Labels{..: l}).Inc()`: get or create the child, add one. -/
def Vec.Inc : Vec → String → Vec
  | [], l => [(l, 1)]
  | (k, v) :: rest, l => if k = l then (k, v + 1) :: rest else (k, v) :: Vec.Inc rest l

end prometheus

/-! ## The program (`main.go`) -/

namespace myapp

/-- Go `type metrics struct`: the `connected_devices` gauge, the `info` gauge
family (label `version`) and the `device_upgrade_total` counter family (label
`type`). -/
structure metrics where
  devices : Nat
  info : prometheus.Vec
  upgrades : prometheus.Vec
deriving DecidableEq, Repr

/-- Go `NewMetrics`: the three instruments, freshly created. -/
def NewMetrics : metrics := ⟨0, [], []⟩

/-- The process state the handlers work on: the package variables `devices`
and `version`, and the registered instruments. -/
structure State where
  devices : List Device
  version : String
  m : metrics
deriving DecidableEq, Repr

/-- Go `func init()`: the two seed records and the version. -/
def init : List Device × String :=
  ([⟨1, "5F-33-CC-1F-43-82", "2.1.6"⟩, ⟨2, "EF-2B-C4-F5-D6-34", "2.1.6"⟩], "2.10.5")

/-- Go `func main()` up to the point where the listeners start: the gauge is
set to `len(devices)`, the `info` child of the running version to 1. -/
def main : State :=
  let m := NewMetrics
  let m1 := { m with devices := init.1.length }
  let m2 := { m1 with info := m1.info.Set init.2 1 }
  ⟨init.1, init.2, m2⟩

/-- Go `createDevice`. -/
def createDevice (w : http.ResponseWriter) (r : http.Request) (st : State) :
    http.ResponseWriter × State :=
  match json.Decode r.Body with
  | Except.error err => (http.Error w err http.StatusBadRequest, st)
  | Except.ok device =>
    let st1 := { st with devices := st.devices ++ [device] }
    let w1 := w.WriteHeader http.StatusCreated
    ((w1.Write "device created").1, st1)

/-- Go `getDevices`. -/
def getDevices (res : http.ResponseWriter) (_req : http.Request) (st : State) :
    http.ResponseWriter × State :=
  match json.Marshal st.devices with
  | Except.error err => (http.Error res err http.StatusBadGateway, st)
  | Except.ok data =>
    let res1 := res.SetHeader "Content-Type" "application/json"
    let res2 := res1.WriteHeader http.StatusOK
    match res2.Write data with
    | (res3, some err) => (http.Error res3 err http.StatusInternalServerError, st)
    | (res3, none) => (res3, st)

/-- The loop of `upgradeDevice`, `for i := range devices`: `n` iterations are
left, `i` is the current index; `devices[i].Firmware` is overwritten in place
when `devices[i].ID == id`. -/
def upgradeLoop (id : Int) (firmware : String) : Nat → Nat → List Device → List Device
  | 0, _, devices => devices
  | n + 1, i, devices =>
    match devices.get? i with
    | none => devices
    | some d =>
      if d.ID = id then
        upgradeLoop id firmware n (i + 1) (devices.set i { d with Firmware := firmware })
      else upgradeLoop id firmware n (i + 1) devices

/-- Go `upgradeDevice`. -/
def upgradeDevice (w : http.ResponseWriter) (r : http.Request) (st : State) :
    http.ResponseWriter × State :=
  let path := strings.TrimPrefix r.Path "/devices/"
  match strconv.Atoi path with
  | none => (http.NotFound w, st)
  | some id =>
    if id < 1 then (http.NotFound w, st)
    else
      match json.Decode r.Body with
      | Except.error err => (http.Error w err http.StatusBadRequest, st)
      | Except.ok device =>
        let devices1 := upgradeLoop id device.Firmware st.devices.length 0 st.devices
        let m1 := { st.m with upgrades := st.m.upgrades.Inc "router" }
        let w1 := w.WriteHeader http.StatusAccepted
        ((w1.Write "Upgrading...").1, { st with devices := devices1, m := m1 })

/-- Go `registerDevicesHandler.ServeHTTP`. -/
def registerDevicesHandler.ServeHTTP (w : http.ResponseWriter) (r : http.Request)
    (st : State) : http.ResponseWriter × State :=
  if r.Method = "GET" then getDevices w r st
  else if r.Method = "POST" then createDevice w r st
  else
    let w1 := w.SetHeader "Allow" "GET, POST"
    (http.Error w1 "Method Not Allowed" http.StatusMethodNotAllowed, st)

/-- Go `manageDevicesHandler.ServeHTTP`. -/
def manageDevicesHandler.ServeHTTP (w : http.ResponseWriter) (r : http.Request)
    (st : State) : http.ResponseWriter × State :=
  if r.Method = "PUT" then upgradeDevice w r st
  else
    let w1 := w.SetHeader "Allow" "PUT"
    (http.Error w1 "Method Not Allowed" http.StatusMethodNotAllowed, st)

end myapp

/-! ## Sequences of requests -/

namespace myapp

/-- One handler invocation by the device listener: `dMux` hands a request for
`/devices` to `registerDevicesHandler` and a request under `/devices/` to
`manageDevicesHandler` (requests the mux answers itself reach no handler). -/
inductive Call
  | register (r : http.Request)
  | manage (r : http.Request)
deriving DecidableEq, Repr

/-- Serve one request: run the handler on a fresh response writer. -/
def serve (st : State) : Call → http.ResponseWriter × State
  | Call.register r => registerDevicesHandler.ServeHTTP http.ResponseWriter.new r st
  | Call.manage r => manageDevicesHandler.ServeHTTP http.ResponseWriter.new r st

/-- Serve a sequence of requests one after the other: the final state. -/
def run : State → List Call → State
  | st, [] => st
  | st, c :: rest => run (serve st c).2 rest

/-- Number of requests of a sequence that are answered `201 Created`. -/
def created : State → List Call → Nat
  | _, [] => 0
  | st, c :: rest =>
    (if (serve st c).1.status = http.StatusCreated then 1 else 0) + created (serve st c).2 rest

/-- The request is a PUT handled by `manageDevicesHandler` that is answered
`202 Accepted`. -/
def acceptedUpgrade (st : State) : Call → Bool
  | Call.manage r =>
    decide (r.Method = "PUT") && decide ((serve st (Call.manage r)).1.status = http.StatusAccepted)
  | Call.register _ => false

/-- What the spec says `updateFirmwareByID(id, newFirmware)` does to one
record: overwrite the firmware when the identifier equals `id`. -/
def setFirmware (id : Int) (firmware : String) (d : Device) : Device :=
  if d.ID = id then { d with Firmware := firmware } else d

end myapp

/-! ## Verified properties -/

/-! ### `strconv` and `strings`: reading back what was written -/

namespace strconv

/-- Whatever `parseInt64` returns fits in 64 bits. -/
theorem parseInt64_range (cs : List Char) (i : Int) (h : parseInt64 cs = some i) :
    -(2 ^ 63 : Int) ≤ i ∧ i < 2 ^ 63 := by
  unfold parseInt64 at h
  split at h
  · cases h
  · split at h
    · split at h
      · cases h; constructor <;> omega
      · cases h
    · cases h
  · split at h
    · split at h
      · cases h; constructor <;> omega
      · cases h
    · cases h
  · split at h
    · split at h
      · cases h; constructor <;> omega
      · cases h
    · cases h

end strconv

namespace strings

end strings

namespace myapp

/-- An identifier `strconv.Atoi` extracts from a path is a 64-bit integer: no
path segment stands for an identifier of 2^63 or more. -/
theorem Atoi_lt (s : String) (id : Int) (h : strconv.Atoi s = some id) : id < 2 ^ 63 :=
  (strconv.parseInt64_range s.data id h).2

end myapp

/-! ### `encoding/json`: trailing data does not change what is decoded -/

namespace json

/-- After a closing brace that neither ends the top-level value nor closes an
object nor fails, the scanner is inside a string, where a space does not end
the value. -/
theorem next_brace_space (s : Scanner) :
    (s.next '}').2 ≠ Op.scanEnd → (s.next '}').2 ≠ Op.scanEndObject →
    (s.next '}').2 ≠ Op.scanEndArray → (s.next '}').2 ≠ Op.scanError →
    ((s.next '}').1.next ' ').2 ≠ Op.scanEnd := by
  obtain ⟨step, endTop, ps, err⟩ := s
  cases step <;> rcases ps with _ | ⟨_ | _ | _, tl⟩ <;>
    simp [Scanner.next, stateBeginValueOrEmpty, stateBeginValue, stateBeginStringOrEmpty,
      stateBeginString, stateEndValue, stateEndTop, stateInString, stateInStringEsc, stateHex,
      stateNeg, state1, state0, stateDot, stateDot0, stateE, stateESign, stateE0, stateLit,
      Scanner.error, Scanner.pushParseState, Scanner.popParseState, isSpace, isDigit, isHex]

/-- When the space fed by `readValue` after a closing bracket does not end
the value, a composite is still open and a further space does not end it
either. -/
theorem endValue_space_twice (s : Scanner) :
    (stateEndValue s ' ').2 ≠ Op.scanEnd →
    ((stateEndValue s ' ').1.next ' ').2 ≠ Op.scanEnd := by
  obtain ⟨step, endTop, ps, err⟩ := s
  rcases ps with _ | ⟨p, tl⟩ <;>
    simp [Scanner.next, stateEndValue, stateEndTop, isSpace]

/-- The scanning loop on a non-empty input, by the opcode of its first
character. -/
theorem readValueLoop_cons (all : List Char) (s : Scanner) (c : Char) (rest : List Char)
    (scanp : Nat) :
    readValueLoop all s (c :: rest) scanp =
      if (s.next c).2 = Op.scanEnd then ReadResult.value scanp
      else if (s.next c).2 = Op.scanEndObject ∨ (s.next c).2 = Op.scanEndArray then
        if (stateEndValue (s.next c).1 ' ').2 = Op.scanEnd then ReadResult.value (scanp + 1)
        else readValueLoop all (stateEndValue (s.next c).1 ' ').1 rest (scanp + 1)
      else if (s.next c).2 = Op.scanError then ReadResult.fail ((s.next c).1.err.getD "")
      else readValueLoop all (s.next c).1 rest (scanp + 1) := by
  rw [readValueLoop]
  rcases h : s.next c with ⟨s1, op⟩
  cases op <;> simp
  all_goals
    rcases h2 : stateEndValue s1 ' ' with ⟨s2, op2⟩
    cases op2 <;> simp

/-- The scanning loop at the end of the input. -/
theorem readValueLoop_nil (all : List Char) (s : Scanner) (scanp : Nat) :
    readValueLoop all s [] scanp =
      if (s.next ' ').2 = Op.scanEnd then ReadResult.value scanp
      else if all.any (fun c => !isSpace c) then ReadResult.fail "unexpected EOF"
      else ReadResult.fail "EOF" := by
  rw [readValueLoop]

/-- The value `readValue` delimits lies inside the input. -/
theorem readValueLoop_le (all : List Char) (buf : List Char) :
    ∀ (s : Scanner) (scanp n : Nat), readValueLoop all s buf scanp = ReadResult.value n →
      n ≤ scanp + buf.length := by
  induction buf with
  | nil =>
    intro s scanp n h
    rw [readValueLoop_nil] at h
    split at h
    · cases h; simp
    · split at h <;> cases h
  | cons c rest ih =>
    intro s scanp n h
    rw [readValueLoop_cons] at h
    simp only [List.length_cons]
    split at h
    · cases h; omega
    · split at h
      · split at h
        · cases h; omega
        · have := ih _ _ _ h; omega
      · split at h
        · cases h
        · have := ih _ _ _ h; omega

/-- Text that ends in a closing brace is scanned the same way whatever follows
it: if `readValue` finds a value in `buf`, it finds the same value in
`buf ++ t`. -/
theorem readValueLoop_append (all all2 t : List Char) (buf : List Char) :
    ∀ (s : Scanner) (scanp n : Nat), buf.getLast? = some '}' →
      readValueLoop all s buf scanp = ReadResult.value n →
      readValueLoop all2 s (buf ++ t) scanp = ReadResult.value n := by
  induction buf with
  | nil => intro s scanp n hl; simp at hl
  | cons c rest ih =>
    intro s scanp n hl h
    rw [List.cons_append, readValueLoop_cons]
    rw [readValueLoop_cons] at h
    by_cases hrest : rest = []
    · subst hrest
      have hc : c = '}' := by simpa using hl
      subst hc
      simp only [readValueLoop_nil] at h
      by_cases h1 : (s.next '}').2 = Op.scanEnd
      · simpa [h1] using h
      · by_cases h2 : (s.next '}').2 = Op.scanEndObject ∨ (s.next '}').2 = Op.scanEndArray
        · by_cases h3 : (stateEndValue (s.next '}').1 ' ').2 = Op.scanEnd
          · simpa [h1, h2, h3] using h
          · have h4 := endValue_space_twice _ h3
            simp [h1, h2, h3, h4] at h
            split at h <;> cases h
        · by_cases h3 : (s.next '}').2 = Op.scanError
          · simp [h1, h2, h3] at h
          · have h4 := next_brace_space s h1 (fun e => h2 (Or.inl e)) (fun e => h2 (Or.inr e)) h3
            simp [h1, h2, h3, h4] at h
            split at h <;> cases h
    · have hl2 : rest.getLast? = some '}' := by
        cases rest with
        | nil => exact absurd rfl hrest
        | cons b tl => simpa [List.getLast?_cons_cons] using hl
      split at h
      · rename_i h1; simpa [h1] using h
      · rename_i h1
        split at h
        · rename_i h2
          split at h
          · rename_i h3; simpa [h1, h2, h3] using h
          · rename_i h3
            simp only [h1, h2, h3, if_false, if_true]
            exact ih _ _ _ hl2 h
        · rename_i h2
          split at h
          · cases h
          · rename_i h3
            simp only [h1, h2, h3, if_false]
            exact ih _ _ _ hl2 h

/-- Trailing data is invisible to `Decode`: a text that ends in a closing
brace and decodes to `P` still decodes to `P` with anything appended. -/
theorem Decode_append (obj t : String) (P : myapp.Device)
    (hl : obj.data.getLast? = some '}') (hd : Decode obj = Except.ok P) :
    Decode (obj ++ t) = Except.ok P := by
  unfold Decode at hd ⊢
  cases hr : readValue obj.data with
  | fail msg => rw [hr] at hd; cases hd
  | value n =>
    rw [hr] at hd
    have hle : n ≤ obj.data.length := by
      have := readValueLoop_le obj.data obj.data Scanner.reset 0 n hr
      simpa using this
    have happ : readValue (obj ++ t).data = ReadResult.value n := by
      rw [String.data_append]
      exact readValueLoop_append obj.data (obj.data ++ t.data) t.data obj.data Scanner.reset 0 n
        hl hr
    rw [happ, String.data_append]
    dsimp only at hd ⊢
    rw [List.take_append_of_le_length hle]
    exact hd

end json

/-! ### The handlers -/

namespace myapp
open http

/-- The in-place loop of `upgradeDevice`, started at index `pre.length` on
`pre ++ suf`, rewrites exactly the records of `suf`. -/
theorem upgradeLoop_append (id : Int) (fw : String) (suf : List Device) :
    ∀ pre : List Device,
      upgradeLoop id fw suf.length pre.length (pre ++ suf)
        = pre ++ suf.map (setFirmware id fw) := by
  induction suf with
  | nil => intro pre; simp [upgradeLoop]
  | cons d rest ih =>
    intro pre
    simp only [List.length_cons, upgradeLoop]
    have hget : (pre ++ d :: rest).get? pre.length = some d := by
      rw [List.get?_eq_getElem?, List.getElem?_append_right (le_refl _)]
      simp
    rw [hget]
    dsimp only
    by_cases h : d.ID = id
    · have hset : (pre ++ d :: rest).set pre.length { d with Firmware := fw }
          = (pre ++ [{ d with Firmware := fw }]) ++ rest := by simp
      have key := ih (pre ++ [{ d with Firmware := fw }])
      simp only [List.length_append, List.length_singleton] at key
      rw [if_pos h, hset, key]
      simp [setFirmware, h]
    · have key := ih (pre ++ [d])
      simp only [List.length_append, List.length_singleton, List.append_assoc,
        List.singleton_append] at key
      rw [if_neg h, key]
      simp [setFirmware, h]

/-- The whole loop of `upgradeDevice` is a map over the store. -/
theorem upgradeLoop_eq_map (id : Int) (fw : String) (S : List Device) :
    upgradeLoop id fw S.length 0 S = S.map (setFirmware id fw) := by
  simpa using upgradeLoop_append id fw S []

/-- Unfolding of `createDevice` on a body that decodes. -/
theorem createDevice_ok (w : ResponseWriter) (r : Request) (st : State) (P : Device)
    (h : json.Decode r.Body = Except.ok P) :
    createDevice w r st =
      (((w.WriteHeader StatusCreated).Write "device created").1,
        { st with devices := st.devices ++ [P] }) := by
  simp [createDevice, h]

/-- Unfolding of `createDevice` on a body that does not decode. -/
theorem createDevice_error (w : ResponseWriter) (r : Request) (st : State) (e : String)
    (h : json.Decode r.Body = Except.error e) :
    createDevice w r st = (Error w e StatusBadRequest, st) := by
  simp [createDevice, h]

/-- Response of `http.Error` on a fresh writer. -/
theorem Error_new (e : String) (code : Nat) :
    Error ResponseWriter.new e code =
      ⟨[("Content-Type", "text/plain; charset=utf-8"), ("X-Content-Type-Options", "nosniff")],
        true, code,
        [("Content-Type", "text/plain; charset=utf-8"), ("X-Content-Type-Options", "nosniff")],
        e ++ "\n"⟩ := by
  simp [Error, ResponseWriter.new, ResponseWriter.SetHeader, ResponseWriter.WriteHeader,
    ResponseWriter.Write, Header.Set]

/-- The GET branch of `registerDevicesHandler`: the response and the state. -/
theorem register_get (st : State) (r : Request) (hm : r.Method = "GET") :
    registerDevicesHandler.ServeHTTP ResponseWriter.new r st
      = (⟨[("Content-Type", "application/json")], true, 200,
            [("Content-Type", "application/json")],
            ⟨'[' :: (json.encodeElems 0 st.devices ++ [']'])⟩⟩, st) := by
  simp [registerDevicesHandler.ServeHTTP, hm, getDevices, json.Marshal, ResponseWriter.new,
    ResponseWriter.SetHeader, ResponseWriter.WriteHeader, ResponseWriter.Write, Header.Set,
    StatusOK]

/-- The POST branch of `registerDevicesHandler`. -/
theorem register_post (st : State) (r : Request) (hm : r.Method = "POST") :
    registerDevicesHandler.ServeHTTP ResponseWriter.new r st
      = createDevice ResponseWriter.new r st := by
  simp [registerDevicesHandler.ServeHTTP, hm]

/-- The default branch of `registerDevicesHandler`. -/
theorem register_other (st : State) (r : Request) (hg : r.Method ≠ "GET")
    (hp : r.Method ≠ "POST") :
    registerDevicesHandler.ServeHTTP ResponseWriter.new r st
      = (⟨[("Allow", "GET, POST"), ("Content-Type", "text/plain; charset=utf-8"),
            ("X-Content-Type-Options", "nosniff")], true, 405,
          [("Allow", "GET, POST"), ("Content-Type", "text/plain; charset=utf-8"),
            ("X-Content-Type-Options", "nosniff")], "Method Not Allowed\n"⟩, st) := by
  simp [registerDevicesHandler.ServeHTTP, hg, hp, Error, ResponseWriter.new,
    ResponseWriter.SetHeader, ResponseWriter.WriteHeader, ResponseWriter.Write, Header.Set,
    StatusMethodNotAllowed]

/-- The default branch of `manageDevicesHandler`. -/
theorem manage_other (st : State) (r : Request) (hp : r.Method ≠ "PUT") :
    manageDevicesHandler.ServeHTTP ResponseWriter.new r st
      = (⟨[("Allow", "PUT"), ("Content-Type", "text/plain; charset=utf-8"),
            ("X-Content-Type-Options", "nosniff")], true, 405,
          [("Allow", "PUT"), ("Content-Type", "text/plain; charset=utf-8"),
            ("X-Content-Type-Options", "nosniff")], "Method Not Allowed\n"⟩, st) := by
  simp [manageDevicesHandler.ServeHTTP, hp, Error, ResponseWriter.new,
    ResponseWriter.SetHeader, ResponseWriter.WriteHeader, ResponseWriter.Write, Header.Set,
    StatusMethodNotAllowed]

/-- The response written on success by `createDevice`. -/
theorem created_response :
    ((ResponseWriter.new.WriteHeader StatusCreated).Write "device created").1
      = ⟨[], true, 201, [], "device created"⟩ := by
  simp [ResponseWriter.new, ResponseWriter.WriteHeader, ResponseWriter.Write, StatusCreated]

/-- The response written on success by `upgradeDevice`. -/
theorem accepted_response :
    ((ResponseWriter.new.WriteHeader StatusAccepted).Write "Upgrading...").1
      = ⟨[], true, 202, [], "Upgrading..."⟩ := by
  simp [ResponseWriter.new, ResponseWriter.WriteHeader, ResponseWriter.Write, StatusAccepted]

/-- Unfolding of `upgradeDevice` when the id parses, is at least 1 and the
body decodes. -/
theorem upgradeDevice_ok (w : ResponseWriter) (r : Request) (st : State) (id : Int)
    (B : Device) (hid : strconv.Atoi (strings.TrimPrefix r.Path "/devices/") = some id)
    (h1 : 1 ≤ id) (hd : json.Decode r.Body = Except.ok B) :
    upgradeDevice w r st =
      (((w.WriteHeader StatusAccepted).Write "Upgrading...").1,
        { st with devices := st.devices.map (setFirmware id B.Firmware),
                  m := { st.m with upgrades := st.m.upgrades.Inc "router" } }) := by
  have hlt : ¬ id < 1 := by omega
  simp [upgradeDevice, hid, hlt, hd, upgradeLoop_eq_map]

/-- Unfolding of `upgradeDevice` when the id parses and is at least 1 but the
body does not decode. -/
theorem upgradeDevice_error (w : ResponseWriter) (r : Request) (st : State) (id : Int)
    (e : String) (hid : strconv.Atoi (strings.TrimPrefix r.Path "/devices/") = some id)
    (h1 : 1 ≤ id) (hd : json.Decode r.Body = Except.error e) :
    upgradeDevice w r st = (Error w e StatusBadRequest, st) := by
  have hlt : ¬ id < 1 := by omega
  simp [upgradeDevice, hid, hlt, hd]

/-- Unfolding of `upgradeDevice` when the id does not parse or is below 1. -/
theorem upgradeDevice_badId (w : ResponseWriter) (r : Request) (st : State)
    (hid : ∀ id, strconv.Atoi (strings.TrimPrefix r.Path "/devices/") = some id → id < 1) :
    upgradeDevice w r st = (NotFound w, st) := by
  cases h : strconv.Atoi (strings.TrimPrefix r.Path "/devices/") with
  | none => simp [upgradeDevice, h]
  | some id => simp [upgradeDevice, h, hid id h]

/-- The PUT branch of `manageDevicesHandler`. -/
theorem manage_put (r : Request) (st : State) (hm : r.Method = "PUT") :
    manageDevicesHandler.ServeHTTP ResponseWriter.new r st
      = upgradeDevice ResponseWriter.new r st := by
  simp [manageDevicesHandler.ServeHTTP, hm]

/-- Reading a counter family after an `Inc`: the child incremented gains one,
every other child keeps its value. -/
theorem Vec_value_Inc (v : prometheus.Vec) (l k : String) :
    prometheus.Vec.value (prometheus.Vec.Inc v l) k
      = prometheus.Vec.value v k + (if k = l then 1 else 0) := by
  induction v with
  | nil =>
    by_cases h : l = k
    · simp [prometheus.Vec.Inc, prometheus.Vec.value, h]
    · have h2 : ¬ k = l := fun e => h e.symm
      simp [prometheus.Vec.Inc, prometheus.Vec.value, h, h2]
  | cons p rest ih =>
    obtain ⟨a, x⟩ := p
    by_cases h1 : a = l
    · by_cases h2 : a = k
      · have h3 : k = l := h2.symm.trans h1
        simp [prometheus.Vec.Inc, prometheus.Vec.value, h1, h3]
      · have h3 : ¬ k = l := fun e => h2 (h1.trans e.symm)
        have h4 : ¬ l = k := fun e => h3 e.symm
        simp [prometheus.Vec.Inc, prometheus.Vec.value, h1, h3, h4]
    · by_cases h2 : a = k
      · have h3 : ¬ k = l := fun e => h1 (h2.trans e)
        simp [prometheus.Vec.Inc, prometheus.Vec.value, h1, h2, h3]
      · simp [prometheus.Vec.Inc, prometheus.Vec.value, h1, h2, ih]

/-- After the first element every element is written behind a comma. -/
theorem encodeElems_succ (rest : List Device) :
    ∀ i : Nat, json.encodeElems (i + 1) rest
      = (rest.map (fun d => ',' :: json.encodeDevice d)).flatten := by
  induction rest with
  | nil => intro i; simp [json.encodeElems]
  | cons d rest ih =>
    intro i
    simp [json.encodeElems, ih (i + 1)]

/-- Joining with a separator: the head, then every other element behind the
separator. -/
theorem intercalate_cons (sep x : List Char) (xs : List (List Char)) :
    List.intercalate sep (x :: xs) = x ++ (xs.map (fun y => sep ++ y)).flatten := by
  induction xs generalizing x with
  | nil => simp [List.intercalate, List.intersperse]
  | cons y ys ih =>
    have h := ih y
    simp only [List.intercalate] at h
    simp [List.intercalate, List.intersperse, h]

/-- The array encoder writes the encodings of the records, in order, with a
comma between neighbours. -/
theorem encodeElems_zero (S : List Device) :
    json.encodeElems 0 S = List.intercalate [','] (S.map json.encodeDevice) := by
  cases S with
  | nil => simp [json.encodeElems, List.intercalate, List.intersperse]
  | cons d rest =>
    rw [List.map_cons, intercalate_cons]
    simp [json.encodeElems, encodeElems_succ, List.map_map, Function.comp_def]

/-- What `registerDevicesHandler` can do to the state: nothing, with a status
other than 201 and 202, or append one device, with status 201. -/
theorem register_cases (st : State) (r : Request) :
    ((registerDevicesHandler.ServeHTTP ResponseWriter.new r st).2 = st ∧
      (registerDevicesHandler.ServeHTTP ResponseWriter.new r st).1.status ≠ 201 ∧
      (registerDevicesHandler.ServeHTTP ResponseWriter.new r st).1.status ≠ 202) ∨
    ((registerDevicesHandler.ServeHTTP ResponseWriter.new r st).1.status = 201 ∧
      ∃ P, (registerDevicesHandler.ServeHTTP ResponseWriter.new r st).2
        = { st with devices := st.devices ++ [P] }) := by
  by_cases hg : r.Method = "GET"
  · left
    rw [register_get st r hg]
    simp
  · by_cases hp : r.Method = "POST"
    · rw [register_post st r hp]
      cases hd : json.Decode r.Body with
      | error e =>
        left
        rw [createDevice_error _ _ _ _ hd, Error_new]
        simp [StatusBadRequest]
      | ok P =>
        right
        rw [createDevice_ok _ _ _ _ hd, created_response]
        exact ⟨rfl, P, rfl⟩
    · left
      rw [register_other st r hg hp]
      simp

/-- What `manageDevicesHandler` can do to the state: nothing, with a status
other than 201 and 202, or (for a PUT) rewrite firmware fields and increment
the `router` child of the upgrade counter, with status 202. -/
theorem manage_cases (st : State) (r : Request) :
    ((manageDevicesHandler.ServeHTTP ResponseWriter.new r st).2 = st ∧
      (manageDevicesHandler.ServeHTTP ResponseWriter.new r st).1.status ≠ 201 ∧
      (manageDevicesHandler.ServeHTTP ResponseWriter.new r st).1.status ≠ 202) ∨
    (r.Method = "PUT" ∧
      (manageDevicesHandler.ServeHTTP ResponseWriter.new r st).1.status = 202 ∧
      ∃ id fw, (manageDevicesHandler.ServeHTTP ResponseWriter.new r st).2
        = { st with devices := st.devices.map (setFirmware id fw),
                    m := { st.m with upgrades := st.m.upgrades.Inc "router" } }) := by
  by_cases hp : r.Method = "PUT"
  · rw [manage_put r st hp]
    cases hA : strconv.Atoi (strings.TrimPrefix r.Path "/devices/") with
    | none =>
      left
      have hall : ∀ id, strconv.Atoi (strings.TrimPrefix r.Path "/devices/") = some id
          → id < 1 := by
        intro id h; rw [hA] at h; cases h
      rw [upgradeDevice_badId _ _ _ hall, NotFound, Error_new]
      simp [StatusNotFound]
    | some id =>
      by_cases hlt : id < 1
      · left
        have hall : ∀ id, strconv.Atoi (strings.TrimPrefix r.Path "/devices/") = some id
            → id < 1 := by
          intro id2 h; rw [hA] at h; cases h; exact hlt
        rw [upgradeDevice_badId _ _ _ hall, NotFound, Error_new]
        simp [StatusNotFound]
      · have h1 : 1 ≤ id := by omega
        cases hd : json.Decode r.Body with
        | error e =>
          left
          rw [upgradeDevice_error _ _ _ _ _ hA h1 hd, Error_new]
          simp [StatusBadRequest]
        | ok B =>
          right
          rw [upgradeDevice_ok _ _ _ _ _ hA h1 hd, accepted_response]
          exact ⟨hp, rfl, id, B.Firmware, rfl⟩
  · left
    rw [manage_other st r hp]
    simp

/-- Serving one request never touches the gauge or the `info` family, and it
lengthens the store by one exactly when it answers 201. -/
theorem serve_gauge (st : State) (c : Call) :
    (serve st c).2.m.devices = st.m.devices ∧
    (serve st c).2.m.info = st.m.info ∧
    (serve st c).2.devices.length
      = st.devices.length + (if (serve st c).1.status = StatusCreated then 1 else 0) := by
  cases c with
  | register r =>
    simp only [serve]
    rcases register_cases st r with ⟨h, h201, _⟩ | ⟨h201, P, h⟩
    · rw [h]; simp [StatusCreated, h201]
    · rw [h]; simp [StatusCreated, h201]
  | manage r =>
    simp only [serve]
    rcases manage_cases st r with ⟨h, h201, _⟩ | ⟨_, h202, id, fw, h⟩
    · rw [h]; simp [StatusCreated, h201]
    · rw [h]; simp [StatusCreated, h202]

/-- Over a whole sequence of requests the gauge keeps its value and the store
grows by the number of requests answered 201. -/
theorem run_gauge (calls : List Call) :
    ∀ st : State, (run st calls).m.devices = st.m.devices ∧
      (run st calls).devices.length = st.devices.length + created st calls := by
  induction calls with
  | nil => intro st; simp [run, created]
  | cons c rest ih =>
    intro st
    have h := serve_gauge st c
    have h2 := ih (serve st c).2
    simp only [run, created]
    rw [h2.1, h2.2, h.1, h.2.2]
    exact ⟨rfl, by omega⟩

/-- C1. A POST to `/devices` whose body decodes to `P` answers 201 with body
"device created" and leaves the store equal to `S ++ [P]`, metrics and version
untouched, whatever `P` holds; a GET served next answers the serialization of
`S ++ [P]`. -/
theorem createDevice_appends (st : State) (r : Request) (P : Device)
    (hm : r.Method = "POST") (hd : json.Decode r.Body = Except.ok P) :
    (registerDevicesHandler.ServeHTTP ResponseWriter.new r st).1.status = 201 ∧
    (registerDevicesHandler.ServeHTTP ResponseWriter.new r st).1.body = "device created" ∧
    (registerDevicesHandler.ServeHTTP ResponseWriter.new r st).2.devices = st.devices ++ [P] ∧
    (registerDevicesHandler.ServeHTTP ResponseWriter.new r st).2.m = st.m ∧
    (registerDevicesHandler.ServeHTTP ResponseWriter.new r st).2.version = st.version ∧
    ∀ g : Request, g.Method = "GET" →
      Except.ok (registerDevicesHandler.ServeHTTP ResponseWriter.new g
        (registerDevicesHandler.ServeHTTP ResponseWriter.new r st).2).1.body
        = json.Marshal (st.devices ++ [P]) := by
  have hserve : registerDevicesHandler.ServeHTTP ResponseWriter.new r st
      = createDevice ResponseWriter.new r st := by
    simp [registerDevicesHandler.ServeHTTP, hm]
  rw [hserve, createDevice_ok _ _ _ _ hd]
  refine ⟨?_, ?_, rfl, rfl, rfl, ?_⟩
  · simp [ResponseWriter.new, ResponseWriter.WriteHeader, ResponseWriter.Write, StatusCreated]
  · simp [ResponseWriter.new, ResponseWriter.WriteHeader, ResponseWriter.Write]
  · intro g hg
    simp [registerDevicesHandler.ServeHTTP, hg, getDevices, json.Marshal,
      ResponseWriter.new, ResponseWriter.WriteHeader, ResponseWriter.Write,
      ResponseWriter.SetHeader]

/-- Witness for C1: on the seed store, posting a device whose id (1) is
already present appends it as the third record. -/
theorem createDevice_appends_witness :
    (registerDevicesHandler.ServeHTTP ResponseWriter.new
        ⟨"POST", "/devices", "\x7b\"id\":1,\"mac\":\"m\",\"firmware\":\"f\"\x7d"⟩ main).1.status = 201 ∧
    (registerDevicesHandler.ServeHTTP ResponseWriter.new
        ⟨"POST", "/devices", "\x7b\"id\":1,\"mac\":\"m\",\"firmware\":\"f\"\x7d"⟩ main).2.devices
      = main.devices ++ [⟨1, "m", "f"⟩] :=
  have h := createDevice_appends main
    ⟨"POST", "/devices", "\x7b\"id\":1,\"mac\":\"m\",\"firmware\":\"f\"\x7d"⟩ ⟨1, "m", "f"⟩ rfl rfl
  ⟨h.1, h.2.2.1⟩

/-- C3. A body that fails to decode makes a POST to `/devices` answer 400
(with the decoder's message) and leave the whole state, the store included,
as it was; a PUT to `/devices/{id}` with an id that parses to a value of at
least 1 answers 400 as well and leaves store and upgrade counter unchanged. -/
theorem malformed_body_rejected (st : State) (r : Request) (e : String)
    (hd : json.Decode r.Body = Except.error e) :
    (r.Method = "POST" →
      (registerDevicesHandler.ServeHTTP ResponseWriter.new r st).1.status = 400 ∧
      (registerDevicesHandler.ServeHTTP ResponseWriter.new r st).1.body = e ++ "\n" ∧
      (registerDevicesHandler.ServeHTTP ResponseWriter.new r st).2 = st) ∧
    (r.Method = "PUT" →
      ∀ id, strconv.Atoi (strings.TrimPrefix r.Path "/devices/") = some id → 1 ≤ id →
        (manageDevicesHandler.ServeHTTP ResponseWriter.new r st).1.status = 400 ∧
        (manageDevicesHandler.ServeHTTP ResponseWriter.new r st).1.body = e ++ "\n" ∧
        (manageDevicesHandler.ServeHTTP ResponseWriter.new r st).2 = st) := by
  constructor
  · intro hm
    have hserve : registerDevicesHandler.ServeHTTP ResponseWriter.new r st
        = createDevice ResponseWriter.new r st := by
      simp [registerDevicesHandler.ServeHTTP, hm]
    rw [hserve, createDevice_error _ _ _ _ hd, Error_new]
    exact ⟨rfl, rfl, rfl⟩
  · intro hm id hid h1
    rw [manage_put r st hm, upgradeDevice_error _ _ _ _ _ hid h1 hd, Error_new]
    exact ⟨rfl, rfl, rfl⟩

/-- Witness for C3: a string where the id should be, posted to `/devices`,
and truncated JSON, put to `/devices/2`, are both answered 400 on the seed
state, which stays as it was. -/
theorem malformed_body_rejected_witness :
    ((registerDevicesHandler.ServeHTTP ResponseWriter.new
        ⟨"POST", "/devices", "\x7b\"id\": \"not-a-number\"\x7d"⟩ main).1.status = 400 ∧
      (registerDevicesHandler.ServeHTTP ResponseWriter.new
        ⟨"POST", "/devices", "\x7b\"id\": \"not-a-number\"\x7d"⟩ main).2 = main) ∧
    ((manageDevicesHandler.ServeHTTP ResponseWriter.new
        ⟨"PUT", "/devices/2", "\x7b\"id\": 2, \"firmware\": \"3.0"⟩ main).1.status = 400 ∧
      (manageDevicesHandler.ServeHTTP ResponseWriter.new
        ⟨"PUT", "/devices/2", "\x7b\"id\": 2, \"firmware\": \"3.0"⟩ main).2 = main) :=
  have h1 := (malformed_body_rejected main
    ⟨"POST", "/devices", "\x7b\"id\": \"not-a-number\"\x7d"⟩
    "json: cannot unmarshal string into Go struct field Device.id of type int" rfl).1 rfl
  have h2 := (malformed_body_rejected main
    ⟨"PUT", "/devices/2", "\x7b\"id\": 2, \"firmware\": \"3.0"⟩ "unexpected EOF" rfl).2 rfl 2
    (by decide) (by decide)
  ⟨⟨h1.1, h1.2.2⟩, ⟨h2.1, h2.2.2⟩⟩

/-- C4. A PUT whose path, once the prefix `/devices/` is stripped, does not
parse as a decimal integer or parses to a value below 1 is answered 404,
whatever the body is, and the state (store and upgrade counter included) is
left unchanged. -/
theorem bad_id_not_found (st : State) (r : Request) (hm : r.Method = "PUT")
    (hid : strconv.Atoi (strings.TrimPrefix r.Path "/devices/") = none ∨
      ∃ id, strconv.Atoi (strings.TrimPrefix r.Path "/devices/") = some id ∧ id < 1) :
    (manageDevicesHandler.ServeHTTP ResponseWriter.new r st).1.status = 404 ∧
    (manageDevicesHandler.ServeHTTP ResponseWriter.new r st).2 = st ∧
    ∀ body : String,
      manageDevicesHandler.ServeHTTP ResponseWriter.new ⟨r.Method, r.Path, body⟩ st
        = manageDevicesHandler.ServeHTTP ResponseWriter.new r st := by
  have hall : ∀ id, strconv.Atoi (strings.TrimPrefix r.Path "/devices/") = some id → id < 1 := by
    intro id h
    rcases hid with hn | ⟨id2, h2, hlt⟩
    · rw [hn] at h; cases h
    · rw [h2] at h; cases h; exact hlt
  rw [manage_put r st hm, upgradeDevice_badId _ _ _ hall]
  refine ⟨?_, rfl, ?_⟩
  · rw [NotFound, Error_new]; rfl
  · intro body
    rw [manage_put ⟨r.Method, r.Path, body⟩ st hm]
    exact upgradeDevice_badId _ ⟨r.Method, r.Path, body⟩ _ hall

/-- Witness for C4: the remainders "abc", "", "1/2", "0" and "-3" are all
answered 404 on the seed state, here with a body that is not even JSON. -/
theorem bad_id_not_found_witness :
    (manageDevicesHandler.ServeHTTP ResponseWriter.new ⟨"PUT", "/devices/abc", "\x7b"⟩ main).1.status
      = 404 ∧
    (manageDevicesHandler.ServeHTTP ResponseWriter.new ⟨"PUT", "/devices/", "\x7b"⟩ main).1.status
      = 404 ∧
    (manageDevicesHandler.ServeHTTP ResponseWriter.new ⟨"PUT", "/devices/1/2", "\x7b"⟩ main).1.status
      = 404 ∧
    (manageDevicesHandler.ServeHTTP ResponseWriter.new ⟨"PUT", "/devices/0", "\x7b"⟩ main).1.status
      = 404 ∧
    (manageDevicesHandler.ServeHTTP ResponseWriter.new ⟨"PUT", "/devices/-3", "\x7b"⟩ main).2
      = main :=
  ⟨(bad_id_not_found main ⟨"PUT", "/devices/abc", "\x7b"⟩ rfl (Or.inl (by decide))).1,
   (bad_id_not_found main ⟨"PUT", "/devices/", "\x7b"⟩ rfl (Or.inl (by decide))).1,
   (bad_id_not_found main ⟨"PUT", "/devices/1/2", "\x7b"⟩ rfl (Or.inl (by decide))).1,
   (bad_id_not_found main ⟨"PUT", "/devices/0", "\x7b"⟩ rfl
      (Or.inr ⟨0, by decide, by decide⟩)).1,
   (bad_id_not_found main ⟨"PUT", "/devices/-3", "\x7b"⟩ rfl
      (Or.inr ⟨-3, by decide, by decide⟩)).2.1⟩

/-- C8. Method dispatch: any method other than GET and POST makes
`registerDevicesHandler` answer 405 with `Allow: GET, POST`; any method other
than PUT makes `manageDevicesHandler` answer 405 with `Allow: PUT`, the same
for every path and body; in both cases the state is unchanged. -/
theorem method_not_allowed (st : State) (r : Request) :
    (r.Method ≠ "GET" → r.Method ≠ "POST" →
      (registerDevicesHandler.ServeHTTP ResponseWriter.new r st).1.status = 405 ∧
      Header.Get (registerDevicesHandler.ServeHTTP ResponseWriter.new r st).1.sent "Allow"
        = "GET, POST" ∧
      (registerDevicesHandler.ServeHTTP ResponseWriter.new r st).2 = st) ∧
    (r.Method ≠ "PUT" →
      (manageDevicesHandler.ServeHTTP ResponseWriter.new r st).1.status = 405 ∧
      Header.Get (manageDevicesHandler.ServeHTTP ResponseWriter.new r st).1.sent "Allow"
        = "PUT" ∧
      (manageDevicesHandler.ServeHTTP ResponseWriter.new r st).2 = st ∧
      ∀ path body : String,
        manageDevicesHandler.ServeHTTP ResponseWriter.new ⟨r.Method, path, body⟩ st
          = manageDevicesHandler.ServeHTTP ResponseWriter.new r st) := by
  constructor
  · intro hg hp
    simp [registerDevicesHandler.ServeHTTP, hg, hp, Error, ResponseWriter.new,
      ResponseWriter.SetHeader, ResponseWriter.WriteHeader, ResponseWriter.Write, Header.Set,
      Header.Get, StatusMethodNotAllowed]
  · intro hp
    simp [manageDevicesHandler.ServeHTTP, hp, Error, ResponseWriter.new,
      ResponseWriter.SetHeader, ResponseWriter.WriteHeader, ResponseWriter.Write, Header.Set,
      Header.Get, StatusMethodNotAllowed]

/-- Witness for C8: `DELETE /devices` and `GET /devices/1` on the seed
state. -/
theorem method_not_allowed_witness :
    ((registerDevicesHandler.ServeHTTP ResponseWriter.new ⟨"DELETE", "/devices", ""⟩ main).1.status
        = 405 ∧
      Header.Get
        (registerDevicesHandler.ServeHTTP ResponseWriter.new ⟨"DELETE", "/devices", ""⟩ main).1.sent
        "Allow" = "GET, POST") ∧
    ((manageDevicesHandler.ServeHTTP ResponseWriter.new ⟨"GET", "/devices/1", ""⟩ main).1.status
        = 405 ∧
      Header.Get
        (manageDevicesHandler.ServeHTTP ResponseWriter.new ⟨"GET", "/devices/1", ""⟩ main).1.sent
        "Allow" = "PUT") :=
  have h1 := (method_not_allowed main ⟨"DELETE", "/devices", ""⟩).1 (by decide) (by decide)
  have h2 := (method_not_allowed main ⟨"GET", "/devices/1", ""⟩).2 (by decide)
  ⟨⟨h1.1, h1.2.1⟩, ⟨h2.1, h2.2.1⟩⟩

/-- C9. A GET to `/devices` answers 200 with `Content-Type: application/json`
and a body that is the JSON array of the encodings of all records of the
store, in store order, and leaves the state unchanged; on the seed state the
body lists exactly the two seed records. -/
theorem getDevices_lists_store (st : State) (r : Request) (hm : r.Method = "GET") :
    (registerDevicesHandler.ServeHTTP ResponseWriter.new r st).1.status = 200 ∧
    Header.Get (registerDevicesHandler.ServeHTTP ResponseWriter.new r st).1.sent "Content-Type"
      = "application/json" ∧
    (registerDevicesHandler.ServeHTTP ResponseWriter.new r st).1.body.data
      = '[' :: (List.intercalate [','] (st.devices.map json.encodeDevice) ++ [']']) ∧
    (registerDevicesHandler.ServeHTTP ResponseWriter.new r st).2 = st ∧
    (registerDevicesHandler.ServeHTTP ResponseWriter.new r main).1.body
      = "[\x7b\"id\":1,\"mac\":\"5F-33-CC-1F-43-82\",\"firmware\":\"2.1.6\"\x7d,\x7b\"id\":2,\"mac\":\"EF-2B-C4-F5-D6-34\",\"firmware\":\"2.1.6\"\x7d]" := by
  have hserve : ∀ s : State, registerDevicesHandler.ServeHTTP ResponseWriter.new r s
      = (⟨[("Content-Type", "application/json")], true, 200,
            [("Content-Type", "application/json")],
            ⟨'[' :: (json.encodeElems 0 s.devices ++ [']'])⟩⟩, s) := by
    intro s
    simp [registerDevicesHandler.ServeHTTP, hm, getDevices, json.Marshal, ResponseWriter.new,
      ResponseWriter.SetHeader, ResponseWriter.WriteHeader, ResponseWriter.Write, Header.Set,
      StatusOK]
  rw [hserve st, hserve main]
  refine ⟨rfl, by simp [Header.Get], ?_, rfl, by decide⟩
  simp [encodeElems_zero]

/-- Witness for C9: `GET /devices` on the seed state. -/
theorem getDevices_lists_store_witness :
    (registerDevicesHandler.ServeHTTP ResponseWriter.new ⟨"GET", "/devices", ""⟩ main).1.status
      = 200 ∧
    (registerDevicesHandler.ServeHTTP ResponseWriter.new ⟨"GET", "/devices", ""⟩ main).2 = main :=
  have h := getDevices_lists_store main ⟨"GET", "/devices", ""⟩ rfl
  ⟨h.1, h.2.2.2.1⟩

/-- C6. The upgrade counter counts accepted update requests: serving any
request adds exactly 1 to the child labelled `router` when the request is a
PUT handled by `manageDevicesHandler` and answered 202, adds nothing to it
otherwise, and never changes a child with another label. -/
theorem upgrade_counter_counts_accepted (st : State) (c : Call) (l : String) :
    (serve st c).2.m.upgrades.value l
      = st.m.upgrades.value l
        + (if l = "router" ∧ acceptedUpgrade st c = true then 1 else 0) := by
  cases c with
  | register r =>
    have hacc : acceptedUpgrade st (Call.register r) = false := rfl
    rw [hacc]
    simp only [serve]
    rcases register_cases st r with ⟨h, _, _⟩ | ⟨_, P, h⟩
    · rw [h]; simp
    · rw [h]; simp
  | manage r =>
    rcases manage_cases st r with ⟨h, _, h202⟩ | ⟨hp, h202, id, fw, h⟩
    · have hacc : acceptedUpgrade st (Call.manage r) = false := by
        simp [acceptedUpgrade, serve, StatusAccepted, h202]
      rw [hacc]
      simp only [serve]
      rw [h]; simp
    · have hacc : acceptedUpgrade st (Call.manage r) = true := by
        simp [acceptedUpgrade, serve, StatusAccepted, h202, hp]
      rw [hacc]
      simp only [serve]
      rw [h]
      simp [Vec_value_Inc]

/-- C7. The connected-devices gauge is a startup snapshot: no sequence of
requests changes it, whatever the state it starts from; bootstrap sets it to
the size of the seeded store, 2; after any sequence of requests it still
reads 2, while the store holds 2 plus the number of POSTs answered 201, so as
soon as one POST succeeded the gauge differs from the store's length. -/
theorem gauge_is_startup_snapshot (st : State) (calls : List Call) :
    (run st calls).m.devices = st.m.devices ∧
    main.m.devices = 2 ∧ main.devices.length = 2 ∧
    (run main calls).m.devices = 2 ∧
    (run main calls).devices.length = 2 + created main calls ∧
    (created main calls = 0 ∨ (run main calls).m.devices ≠ (run main calls).devices.length) := by
  have h := run_gauge calls main
  have hg : main.m.devices = 2 := rfl
  have hl : main.devices.length = 2 := rfl
  rw [hg, hl] at h
  refine ⟨(run_gauge calls st).1, hg, hl, h.1, h.2, ?_⟩
  rw [h.1, h.2]
  omega

end myapp

namespace myapp
open http

/-- C10 as stated fails: on the seed state, a POST whose body is a Device
object followed by the trailing text " garbage" is answered 201, not 400, and
the device is appended. -/
theorem trailing_data_not_rejected :
    (registerDevicesHandler.ServeHTTP ResponseWriter.new
        ⟨"POST", "/devices", "\x7b\"id\":3,\"mac\":\"m\",\"firmware\":\"f\"\x7d garbage"⟩
        main).1.status = 201 ∧
    (registerDevicesHandler.ServeHTTP ResponseWriter.new
        ⟨"POST", "/devices", "\x7b\"id\":3,\"mac\":\"m\",\"firmware\":\"f\"\x7d garbage"⟩
        main).2.devices = main.devices ++ [⟨3, "m", "f"⟩] ∧
    ¬ ((registerDevicesHandler.ServeHTTP ResponseWriter.new
          ⟨"POST", "/devices", "\x7b\"id\":3,\"mac\":\"m\",\"firmware\":\"f\"\x7d garbage"⟩
          main).1.status = 400 ∧
       (registerDevicesHandler.ServeHTTP ResponseWriter.new
          ⟨"POST", "/devices", "\x7b\"id\":3,\"mac\":\"m\",\"firmware\":\"f\"\x7d garbage"⟩
          main).2.devices = main.devices) := by
  have hd : json.Decode "\x7b\"id\":3,\"mac\":\"m\",\"firmware\":\"f\"\x7d garbage"
      = Except.ok ⟨3, "m", "f"⟩ := rfl
  rw [register_post main _ rfl, createDevice_ok _ _ _ _ hd, created_response]
  refine ⟨rfl, rfl, ?_⟩
  intro h
  exact absurd h.1 (by decide)

/-- C10, amended. A POST to `/devices` whose body is a text that ends in a
closing brace and decodes to the device `P`, followed by any trailing data,
is handled as if the trailing data were absent: it is answered 201 with body
"device created" and `P` is appended to the store. -/
theorem trailing_data_ignored (st : State) (r : Request) (obj trailing : String) (P : Device)
    (hm : r.Method = "POST") (hb : r.Body = obj ++ trailing)
    (hl : obj.data.getLast? = some '}') (hd : json.Decode obj = Except.ok P) :
    (registerDevicesHandler.ServeHTTP ResponseWriter.new r st).1.status = 201 ∧
    (registerDevicesHandler.ServeHTTP ResponseWriter.new r st).1.body = "device created" ∧
    (registerDevicesHandler.ServeHTTP ResponseWriter.new r st).2.devices = st.devices ++ [P] := by
  have hd2 : json.Decode r.Body = Except.ok P := by
    rw [hb]; exact json.Decode_append obj trailing P hl hd
  rw [register_post st r hm, createDevice_ok _ _ _ _ hd2, created_response]
  exact ⟨rfl, rfl, rfl⟩

/-- Witness for amended C10: the object of the counterexample, followed by
the text " garbage", posted on the seed state. -/
theorem trailing_data_ignored_witness :
    (registerDevicesHandler.ServeHTTP ResponseWriter.new
        ⟨"POST", "/devices",
          "\x7b\"id\":3,\"mac\":\"m\",\"firmware\":\"f\"\x7d" ++ " garbage"⟩ main).1.status = 201 ∧
    (registerDevicesHandler.ServeHTTP ResponseWriter.new
        ⟨"POST", "/devices",
          "\x7b\"id\":3,\"mac\":\"m\",\"firmware\":\"f\"\x7d" ++ " garbage"⟩ main).2.devices
      = main.devices ++ [⟨3, "m", "f"⟩] :=
  have h := trailing_data_ignored main
    ⟨"POST", "/devices", "\x7b\"id\":3,\"mac\":\"m\",\"firmware\":\"f\"\x7d" ++ " garbage"⟩
    "\x7b\"id\":3,\"mac\":\"m\",\"firmware\":\"f\"\x7d" " garbage" ⟨3, "m", "f"⟩
    rfl rfl (by decide) rfl
  ⟨h.1, h.2.2⟩

/-- Witness for C7: after one successful POST on the seed state the gauge
reads 2 and the store holds 3 records. -/
theorem gauge_is_startup_snapshot_witness :
    (run main [Call.register
        ⟨"POST", "/devices", "\x7b\"id\":3,\"mac\":\"m\",\"firmware\":\"f\"\x7d"⟩]).m.devices = 2 ∧
    (run main [Call.register
        ⟨"POST", "/devices", "\x7b\"id\":3,\"mac\":\"m\",\"firmware\":\"f\"\x7d"⟩]).devices.length
      = 2 + 1 :=
  have h := gauge_is_startup_snapshot main
    [Call.register ⟨"POST", "/devices", "\x7b\"id\":3,\"mac\":\"m\",\"firmware\":\"f\"\x7d"⟩]
  ⟨h.2.2.2.1, h.2.2.2.2.1.trans rfl⟩

end myapp
